import Mathlib

/-!
Verification of the data-processing core of the Lulu UAE sales dashboard
(`app.py`): the dataset loader, the sidebar filter pipeline, and the
groupby-aggregation functions backing the KPIs, charts and tables.

Tables are embedded as `List Row`; pandas nullable cells (`NaN`/`NaT`)
become `Option` values.  Numeric currency amounts are modelled as `Int`
(the claims only exercise integral values); means and ratios, which pandas
computes in floating point, are modelled as `Option ℚ` with `none` playing
the role of `NaN` (mean of an empty series).
-/

namespace Lulu

/-- A parsed `order_datetime` value: what the dashboard derives from it is
the weekday (`dt.day_name()`) and the hour (`dt.hour`). -/
structure DateTime where
  dow : Fin 7
  hour : Nat
deriving DecidableEq, Repr

/-- `day_name()` for a weekday number (Monday-first, as the chart's reindex
list orders them). -/
def dayName : Fin 7 → String
  | 0 => "Monday"
  | 1 => "Tuesday"
  | 2 => "Wednesday"
  | 3 => "Thursday"
  | 4 => "Friday"
  | 5 => "Saturday"
  | 6 => "Sunday"

/-- One order-line record of the loaded table, with the derived columns
added by `load_data` (`order_month_dt`, `day_of_week`, `hour_of_day`) and
the numeric coercions applied (`quantity`, `line_value_aed`). -/
structure Row where
  order_id : Nat
  order_datetime : Option DateTime
  order_month : String
  order_month_dt : Option Int
  day_of_week : Option String
  hour_of_day : Option Nat
  department : String
  category : String
  brand : String
  sku_id : String
  city : String
  city_zone : String
  channel : String
  nationality_group : String
  age : Int
  loyalty_member : Bool
  quantity : Option Int
  line_value_aed : Option Int
  basket_size_items : Option Int
deriving DecidableEq, Repr

/-- The sidebar filter state: `none` models the `"All"` sentinel of the
selectboxes; the age slider always supplies both bounds. -/
structure FilterSpec where
  department : Option String
  category : Option String
  nationality_group : Option String
  age_min : Int
  age_max : Int
  month : Option String
deriving DecidableEq, Repr

/-- The filter pipeline of `app.py` lines 52-61: start from a copy of the
loaded table, then apply each active boolean-mask filter in turn; the age
mask is applied unconditionally. -/
def applyFilters (f : FilterSpec) (df : List Row) : List Row :=
  let d0 : List Row := df
  let d1 : List Row := match f.department with
    | some v => d0.filter (fun r => r.department == v)
    | none => d0
  let d2 : List Row := match f.category with
    | some v => d1.filter (fun r => r.category == v)
    | none => d1
  let d3 : List Row := match f.nationality_group with
    | some v => d2.filter (fun r => r.nationality_group == v)
    | none => d2
  let d4 : List Row := d3.filter (fun r => decide (f.age_min ≤ r.age) && decide (r.age ≤ f.age_max))
  match f.month with
  | some v => d4.filter (fun r => r.order_month == v)
  | none => d4

/-- The conjunction of all active predicates of a filter specification. -/
def rowMatches (f : FilterSpec) (r : Row) : Bool :=
  (match f.department with | some v => r.department == v | none => true) &&
  (match f.category with | some v => r.category == v | none => true) &&
  (match f.nationality_group with | some v => r.nationality_group == v | none => true) &&
  (decide (f.age_min ≤ r.age) && decide (r.age ≤ f.age_max)) &&
  (match f.month with | some v => r.order_month == v | none => true)

theorem filter_filter_comp (p q : Row → Bool) (l : List Row) :
    (l.filter p).filter q = l.filter (fun r => p r && q r) := by
  induction l with
  | nil => rfl
  | cons a l ih =>
    by_cases hp : p a <;> by_cases hq : q a <;>
      simp [List.filter_cons, hp, hq, ih]

theorem applyFilters_eq_filter (f : FilterSpec) (df : List Row) :
    applyFilters f df = df.filter (rowMatches f) := by
  unfold applyFilters rowMatches
  cases f.department <;> cases f.category <;> cases f.nationality_group <;>
    cases f.month <;>
    simp only [filter_filter_comp] <;> congr 1 <;> funext r <;>
    simp [Bool.and_assoc]

/-- Sum of the non-null `line_value_aed` values of a list of rows: pandas
`Series.sum()` with its default `skipna=True`. -/
def sumVal (rows : List Row) : Int :=
  (rows.filterMap Row.line_value_aed).sum

/-- The `Total Sales` KPI (`app.py` line 69): `df_filtered['line_value_aed'].sum()`. -/
def totalSales (df : List Row) : Int := sumVal df

/-- Distinct `order_id` values, in order of first appearance (the grouping
step of `groupby`/`nunique` over a non-null key column). -/
def uniqueKeys {K : Type} [DecidableEq K] (l : List K) : List K :=
  l.foldl (fun acc k => if k ∈ acc then acc else acc ++ [k]) []

/-- The `Unique Orders` KPI (line 70): `df_filtered['order_id'].nunique()`. -/
def uniqueOrders (df : List Row) : Nat :=
  (uniqueKeys (df.map Row.order_id)).length

/-- The `Avg Order Value` KPI (line 71):
`df_filtered.groupby('order_id')['line_value_aed'].sum().mean()`.
Each order's lines are summed with nulls skipped (an all-null order sums
to 0), then the per-order sums are averaged; the mean of an empty series
is NaN, modelled as `none`. -/
def avgOrderValue (df : List Row) : Option ℚ :=
  let orders := uniqueKeys (df.map Row.order_id)
  match orders with
  | [] => none
  | _ => some (((orders.map (fun o =>
      sumVal (df.filter (fun r => r.order_id == o)))).sum : ℚ) / orders.length)

/-- The `Loyalty Members (%)` KPI (line 72):
`df_filtered['loyalty_member'].mean() * 100`; the mean of an empty column
is NaN, modelled as `none`. -/
def loyaltyShare (df : List Row) : Option ℚ :=
  match df with
  | [] => none
  | _ => some (((df.map (fun r => if r.loyalty_member then (1 : ℚ) else 0)).sum
      / df.length) * 100)

/-- C1: for every filter specification, the filtered table is exactly the
rows of the input satisfying the conjunction of the active predicates, in
input order with all columns intact (each output row is an input row), and
its row count is at most the input's. -/
theorem C1_filter_exact (f : FilterSpec) (df : List Row) :
    applyFilters f df = df.filter (rowMatches f) ∧
    (applyFilters f df).Sublist df ∧
    (applyFilters f df).length ≤ df.length := by
  refine ⟨applyFilters_eq_filter f df, ?_, ?_⟩
  · rw [applyFilters_eq_filter]; exact List.filter_sublist df
  · rw [applyFilters_eq_filter]; exact List.length_filter_le _ df

/-- C2: the filter pipeline is idempotent: applying the same filter
specification twice yields the same table as applying it once. -/
theorem C2_filter_idempotent (f : FilterSpec) (df : List Row) :
    applyFilters f (applyFilters f df) = applyFilters f df := by
  rw [applyFilters_eq_filter, applyFilters_eq_filter, filter_filter_comp]
  apply List.filter_congr
  intro r _
  exact Bool.and_self (rowMatches f r)

/-- A row holding default values, used to build concrete test tables. -/
def row0 : Row :=
  { order_id := 0
    order_datetime := none
    order_month := "2024-01"
    order_month_dt := some (2024 * 12 + 1)
    day_of_week := none
    hour_of_day := none
    department := "Grocery"
    category := "Food"
    brand := "B"
    sku_id := "S"
    city := "Dubai"
    city_zone := "Z1"
    channel := "offline"
    nationality_group := "GCC"
    age := 30
    loyalty_member := false
    quantity := some 1
    line_value_aed := some 0
    basket_size_items := some 1 }

/-- The three-row scenario table of the spec: two Grocery rows (values 100
and null) and one Electronics row (value 50), with distinct order ids. -/
def df3 : List Row :=
  [ { row0 with order_id := 1, department := "Grocery", line_value_aed := some 100 },
    { row0 with order_id := 2, department := "Grocery", line_value_aed := none },
    { row0 with order_id := 3, department := "Electronics", line_value_aed := some 50 } ]

/-- A filter specification selecting `department = "Grocery"` with the age
slider left at bounds covering the whole table. -/
def grocerySpec : FilterSpec :=
  { department := some "Grocery"
    category := none
    nationality_group := none
    age_min := 0
    age_max := 100
    month := none }

/-- C3: total sales sums exactly the non-null `line_value_aed` values
(equivalently, nulls contribute 0), while null-valued rows remain present;
on the spec's 3-row scenario the `department="Grocery"` filter keeps both
Grocery rows and total sales is 100, with 2 distinct orders. -/
theorem C3_total_sales_skips_null :
    (∀ df : List Row,
      totalSales df = (df.map (fun r => r.line_value_aed.getD 0)).sum) ∧
    totalSales (applyFilters grocerySpec df3) = 100 ∧
    (applyFilters grocerySpec df3).length = 2 ∧
    uniqueOrders (applyFilters grocerySpec df3) = 2 := by
  refine ⟨?_, by decide, by decide, by decide⟩
  intro df
  induction df with
  | nil => rfl
  | cons r l ih =>
    simp only [totalSales, sumVal, List.filterMap_cons, List.map_cons, List.sum_cons]
    cases h : r.line_value_aed with
    | none => simpa [h, totalSales, sumVal] using ih
    | some v => simpa [h, totalSales, sumVal] using congrArg (v + ·) ih

/-- C4: on an empty filtered table no aggregation fails: total sales is 0,
unique orders is 0, average order value is NaN (`none`, distinct from
`some 0`), and the loyalty ratio is NaN (`none`). -/
theorem C4_empty_aggregations (df : List Row) (f : FilterSpec)
    (h : applyFilters f df = []) :
    totalSales (applyFilters f df) = 0 ∧
    uniqueOrders (applyFilters f df) = 0 ∧
    avgOrderValue (applyFilters f df) = none ∧
    avgOrderValue (applyFilters f df) ≠ some 0 ∧
    loyaltyShare (applyFilters f df) = none := by
  rw [h]
  exact ⟨rfl, rfl, rfl, by simp [avgOrderValue, uniqueKeys], rfl⟩

/-- C4 witness: the Grocery filter empties a one-row Electronics table, and
the empty-table aggregation results hold there. -/
theorem C4_empty_aggregations_witness :
    totalSales (applyFilters grocerySpec [{ row0 with department := "Electronics" }]) = 0 ∧
    uniqueOrders (applyFilters grocerySpec [{ row0 with department := "Electronics" }]) = 0 ∧
    avgOrderValue (applyFilters grocerySpec [{ row0 with department := "Electronics" }]) = none ∧
    avgOrderValue (applyFilters grocerySpec [{ row0 with department := "Electronics" }]) ≠ some 0 ∧
    loyaltyShare (applyFilters grocerySpec [{ row0 with department := "Electronics" }]) = none :=
  C4_empty_aggregations [{ row0 with department := "Electronics" }] grocerySpec (by decide)

/-- C5: total sales is additive across the partition of any table by a
department value: the sum over `department = A` plus the sum over
`department ≠ A` equals the unfiltered sum, nulls excluded consistently. -/
theorem C5_total_sales_additive (df : List Row) (A : String) :
    totalSales (df.filter (fun r => r.department == A)) +
      totalSales (df.filter (fun r => r.department != A)) = totalSales df := by
  induction df with
  | nil => rfl
  | cons r l ih =>
    simp only [totalSales, sumVal] at ih ⊢
    by_cases h : r.department = A
    · have hb : (r.department == A) = true := beq_iff_eq.mpr h
      have hb' : (r.department != A) = false := by simp [bne, hb]
      simp only [List.filter_cons, hb, hb', cond_true, cond_false]
      cases hv : r.line_value_aed <;> simp [hv] <;> linarith [ih]
    · have hb : (r.department == A) = false := beq_eq_false_iff_ne.mpr h
      have hb' : (r.department != A) = true := by simp [bne, hb]
      simp only [List.filter_cons, hb, hb', cond_true, cond_false]
      cases hv : r.line_value_aed <;> simp [hv] <;> linarith [ih]

/-- Insertion of an element into a sorted list: `a` goes in front of the
first element `b` with `le a b`.  For equal elements the inserted element
ends up first, which makes the fold below a stable sort. -/
def insertSorted {α : Type} (le : α → α → Bool) (a : α) : List α → List α
  | [] => [a]
  | b :: bs => if le a b then a :: b :: bs else b :: insertSorted le a bs

/-- Stable insertion sort with respect to a boolean comparison. -/
def insSort {α : Type} (le : α → α → Bool) (l : List α) : List α :=
  l.foldr (insertSorted le) []

theorem mem_insertSorted {α : Type} (le : α → α → Bool) (a x : α) (l : List α) :
    x ∈ insertSorted le a l ↔ x = a ∨ x ∈ l := by
  induction l with
  | nil => simp [insertSorted]
  | cons b bs ih =>
    by_cases h : le a b
    all_goals simp [insertSorted, h, ih]
    all_goals tauto

theorem insertSorted_perm {α : Type} (le : α → α → Bool) (a : α) (l : List α) :
    (insertSorted le a l).Perm (a :: l) := by
  induction l with
  | nil => simp [insertSorted]
  | cons b bs ih =>
    by_cases h : le a b
    · simp [insertSorted, h]
    · simp only [insertSorted, if_neg h]
      exact (ih.cons b).trans (List.Perm.swap a b bs)

theorem insSort_perm {α : Type} (le : α → α → Bool) (l : List α) :
    (insSort le l).Perm l := by
  induction l with
  | nil => exact List.Perm.refl []
  | cons a l ih =>
    exact (insertSorted_perm le a (insSort le l)).trans (ih.cons a)

theorem insertSorted_sorted {α : Type} (le : α → α → Bool)
    (htot : ∀ a b, le a b = true ∨ le b a = true)
    (htrans : ∀ a b c, le a b = true → le b c = true → le a c = true)
    (a : α) (l : List α) (hl : l.Pairwise (fun x y => le x y = true)) :
    (insertSorted le a l).Pairwise (fun x y => le x y = true) := by
  induction l with
  | nil => simp [insertSorted]
  | cons b bs ih =>
    rcases List.pairwise_cons.mp hl with ⟨hb, hbs⟩
    by_cases h : le a b = true
    · simp only [insertSorted, h, if_pos rfl]
      refine List.pairwise_cons.mpr ⟨?_, hl⟩
      intro x hx
      rcases List.mem_cons.mp hx with hx | hx
      · exact hx ▸ h
      · exact htrans a b x h (hb x hx)
    · simp only [insertSorted, if_neg h]
      refine List.pairwise_cons.mpr ⟨?_, ih hbs⟩
      intro x hx
      rcases (mem_insertSorted le a x bs).mp hx with hx | hx
      · subst hx
        rcases htot x b with hab | hba
        · exact absurd hab h
        · exact hba
      · exact hb x hx

theorem insSort_sorted {α : Type} (le : α → α → Bool)
    (htot : ∀ a b, le a b = true ∨ le b a = true)
    (htrans : ∀ a b c, le a b = true → le b c = true → le a c = true)
    (l : List α) :
    (insSort le l).Pairwise (fun x y => le x y = true) := by
  induction l with
  | nil => simp [insSort]
  | cons a l ih => exact insertSorted_sorted le htot htrans a _ ih

theorem uniqueKeys_nodup_aux {K : Type} [DecidableEq K] (l : List K)
    (acc : List K) (h : acc.Nodup) :
    (l.foldl (fun acc k => if k ∈ acc then acc else acc ++ [k]) acc).Nodup := by
  induction l generalizing acc with
  | nil => exact h
  | cons k l ih =>
    simp only [List.foldl_cons]
    by_cases hk : k ∈ acc
    · simpa [hk] using ih acc h
    · have : (acc ++ [k]).Nodup := by simp [List.nodup_append, h, hk]
      simpa [hk] using ih (acc ++ [k]) this

theorem uniqueKeys_nodup {K : Type} [DecidableEq K] (l : List K) :
    (uniqueKeys l).Nodup :=
  uniqueKeys_nodup_aux l [] List.nodup_nil

/-- Lexicographic less-or-equal on character lists: the ordering Python
(and hence pandas key sorting) uses on strings, by code point. -/
def lexLe : List Char → List Char → Bool
  | [], _ => true
  | _ :: _, [] => false
  | a :: as, b :: bs => decide (a < b) || (decide (a = b) && lexLe as bs)

/-- Strict lexicographic order on character lists. -/
def lexLt : List Char → List Char → Bool
  | [], [] => false
  | [], _ :: _ => true
  | _ :: _, [] => false
  | a :: as, b :: bs => decide (a < b) || (decide (a = b) && lexLt as bs)

theorem lexLe_total (x y : List Char) : lexLe x y = true ∨ lexLe y x = true := by
  induction x generalizing y with
  | nil => left; cases y <;> rfl
  | cons a as ih =>
    cases y with
    | nil => right; rfl
    | cons b bs =>
      rcases lt_trichotomy a b with h | h | h
      · left; simp [lexLe, h]
      · subst h
        rcases ih bs with h' | h'
        · left; simp [lexLe, h']
        · right; simp [lexLe, h']
      · right; simp [lexLe, h]

theorem lexLe_trans (x y z : List Char) (h1 : lexLe x y = true)
    (h2 : lexLe y z = true) : lexLe x z = true := by
  induction x generalizing y z with
  | nil => cases z <;> rfl
  | cons a as ih =>
    cases y with
    | nil => simp [lexLe] at h1
    | cons b bs =>
      cases z with
      | nil => simp [lexLe] at h2
      | cons c cs =>
        simp only [lexLe, Bool.or_eq_true, Bool.and_eq_true,
          decide_eq_true_eq] at h1 h2 ⊢
        rcases h1 with h1 | ⟨rfl, h1⟩
        · rcases h2 with h2 | ⟨rfl, h2⟩
          · exact Or.inl (lt_trans h1 h2)
          · exact Or.inl h1
        · rcases h2 with h2 | ⟨rfl, h2⟩
          · exact Or.inl h2
          · exact Or.inr ⟨rfl, ih bs cs h1 h2⟩

theorem lexLe_antisymm (x y : List Char) (h1 : lexLe x y = true)
    (h2 : lexLe y x = true) : x = y := by
  induction x generalizing y with
  | nil =>
    cases y with
    | nil => rfl
    | cons b bs => simp [lexLe] at h2
  | cons a as ih =>
    cases y with
    | nil => simp [lexLe] at h1
    | cons b bs =>
      simp only [lexLe, Bool.or_eq_true, Bool.and_eq_true,
        decide_eq_true_eq] at h1 h2
      rcases h1 with h1 | ⟨rfl, h1⟩
      · rcases h2 with h2 | ⟨rfl, _⟩
        · exact absurd h2 (lt_asymm h1)
        · exact absurd h1 (lt_irrefl _)
      · rcases h2 with h2 | ⟨_, h2⟩
        · exact absurd h2 (lt_irrefl _)
        · rw [ih bs h1 h2]

theorem lexLt_iff (x y : List Char) :
    lexLt x y = true ↔ lexLe x y = true ∧ x ≠ y := by
  induction x generalizing y with
  | nil =>
    cases y with
    | nil => simp [lexLt, lexLe]
    | cons b bs => simp [lexLt, lexLe]
  | cons a as ih =>
    cases y with
    | nil => simp [lexLt, lexLe]
    | cons b bs =>
      simp only [lexLt, lexLe, Bool.or_eq_true, Bool.and_eq_true,
        decide_eq_true_eq, ih, ne_eq, List.cons.injEq, not_and]
      constructor
      · rintro (h | ⟨rfl, h1, h2⟩)
        · exact ⟨Or.inl h, fun he => absurd (he ▸ h) (lt_irrefl a)⟩
        · exact ⟨Or.inr ⟨rfl, h1⟩, fun _ => h2⟩
      · rintro ⟨h | ⟨rfl, h1⟩, hne⟩
        · exact Or.inl h
        · exact Or.inr ⟨rfl, h1, hne rfl⟩

/-- String less-or-equal, by code-point lexicographic comparison of the
underlying characters (Python string comparison). -/
def strLe (a b : String) : Bool := lexLe a.data b.data

/-- Strict string order. -/
def strLt (a b : String) : Bool := lexLt a.data b.data

theorem strLe_total (a b : String) : strLe a b = true ∨ strLe b a = true :=
  lexLe_total a.data b.data

theorem strLe_trans (a b c : String) (h1 : strLe a b = true)
    (h2 : strLe b c = true) : strLe a c = true :=
  lexLe_trans a.data b.data c.data h1 h2

theorem strLe_antisymm (a b : String) (h1 : strLe a b = true)
    (h2 : strLe b a = true) : a = b := by
  cases a; cases b
  exact congrArg String.mk (lexLe_antisymm _ _ h1 h2)

theorem strLt_iff (a b : String) : strLt a b = true ↔ strLe a b = true ∧ a ≠ b := by
  unfold strLt strLe
  rw [lexLt_iff]
  constructor
  · rintro ⟨h1, h2⟩
    exact ⟨h1, fun he => h2 (congrArg String.data he)⟩
  · rintro ⟨h1, h2⟩
    refine ⟨h1, fun he => h2 ?_⟩
    cases a; cases b
    exact congrArg String.mk he

theorem strLt_trans (a b c : String) (h1 : strLt a b = true)
    (h2 : strLt b c = true) : strLt a c = true := by
  rw [strLt_iff] at h1 h2 ⊢
  refine ⟨strLe_trans a b c h1.1 h2.1, fun he => ?_⟩
  subst he
  exact h2.2 (strLe_antisymm b a h2.1 h1.1)

theorem strLt_trichotomy (a b : String) :
    strLt a b = true ∨ a = b ∨ strLt b a = true := by
  by_cases he : a = b
  · exact Or.inr (Or.inl he)
  · rcases strLe_total a b with h | h
    · exact Or.inl ((strLt_iff a b).mpr ⟨h, he⟩)
    · exact Or.inr (Or.inr ((strLt_iff b a).mpr ⟨h, fun h' => he h'.symm⟩))

/-- Lexicographic less-or-equal on the sku/brand/zone triple, the order in
which a multi-column pandas groupby emits its group keys. -/
def sku3Le (a b : String × String × String) : Bool :=
  strLt a.1 b.1 ||
    (a.1 == b.1 &&
      (strLt a.2.1 b.2.1 || (a.2.1 == b.2.1 && strLe a.2.2 b.2.2)))

theorem sku3Le_total (a b : String × String × String) :
    sku3Le a b = true ∨ sku3Le b a = true := by
  obtain ⟨a1, a2, a3⟩ := a
  obtain ⟨b1, b2, b3⟩ := b
  simp only [sku3Le, Bool.or_eq_true, Bool.and_eq_true, beq_iff_eq]
  rcases strLt_trichotomy a1 b1 with h | rfl | h
  · exact Or.inl (Or.inl h)
  · rcases strLt_trichotomy a2 b2 with h | rfl | h
    · exact Or.inl (Or.inr ⟨rfl, Or.inl h⟩)
    · rcases strLe_total a3 b3 with h | h
      · exact Or.inl (Or.inr ⟨rfl, Or.inr ⟨rfl, h⟩⟩)
      · exact Or.inr (Or.inr ⟨rfl, Or.inr ⟨rfl, h⟩⟩)
    · exact Or.inr (Or.inr ⟨rfl, Or.inl h⟩)
  · exact Or.inr (Or.inl h)

theorem sku3Le_trans (a b c : String × String × String)
    (h1 : sku3Le a b = true) (h2 : sku3Le b c = true) : sku3Le a c = true := by
  obtain ⟨a1, a2, a3⟩ := a
  obtain ⟨b1, b2, b3⟩ := b
  obtain ⟨c1, c2, c3⟩ := c
  simp only [sku3Le, Bool.or_eq_true, Bool.and_eq_true, beq_iff_eq] at h1 h2 ⊢
  rcases h1 with h1 | ⟨rfl, h1⟩
  · rcases h2 with h2 | ⟨rfl, _⟩
    · exact Or.inl (strLt_trans _ _ _ h1 h2)
    · exact Or.inl h1
  · rcases h2 with h2 | ⟨rfl, h2⟩
    · exact Or.inl h2
    · rcases h1 with h1 | ⟨rfl, h1⟩
      · rcases h2 with h2 | ⟨rfl, _⟩
        · exact Or.inr ⟨rfl, Or.inl (strLt_trans _ _ _ h1 h2)⟩
        · exact Or.inr ⟨rfl, Or.inl h1⟩
      · rcases h2 with h2 | ⟨rfl, h2⟩
        · exact Or.inr ⟨rfl, Or.inl h2⟩
        · exact Or.inr ⟨rfl, Or.inr ⟨rfl, strLe_trans _ _ _ h1 h2⟩⟩

/-- A groupby-then-sum step, `df.groupby(key)['line_value_aed'].sum()`:
one output pair per distinct key, with the group keys in ascending order
of the comparator `le` (pandas `groupby` defaults to `sort=True`) and each
group's `line_value_aed` values summed with nulls skipped. -/
def groupbySum {K : Type} [DecidableEq K] (le : K → K → Bool) (key : Row → K)
    (df : List Row) : List (K × Int) :=
  (insSort le (uniqueKeys (df.map key))).map
    (fun k => (k, sumVal (df.filter (fun r => decide (key r = k)))))

/-- `.sort_values(ascending=False).head n`: sort the grouped sums by value
descending and keep the first `n`.  pandas' default sort kind (quicksort)
is documented as unstable, so the order it leaves among equal values is
not a program guarantee; a concrete insertion sort stands in for it here,
and only properties every correct descending sort shares (row count,
descending values) and evaluations on inputs small enough for numpy's
introsort to coincide with an insertion sort are read off from it. -/
def topN {K : Type} (n : Nat) (g : List (K × Int)) : List (K × Int) :=
  (insSort (fun a b => decide (b.2 ≤ a.2)) g).take n

/-- Any `topN` result has at most `n` rows and descending values: these
two facts hold for every correct descending sort, whatever it does with
ties. -/
theorem topN_le_sorted {K : Type} (n : Nat) (g : List (K × Int)) :
    (topN n g).length ≤ n ∧ (topN n g).Pairwise (fun a b => b.2 ≤ a.2) := by
  have hsorted := insSort_sorted (fun a b : K × Int => decide (b.2 ≤ a.2))
    (fun a b => by rcases le_total b.2 a.2 with h | h <;> simp [h])
    (fun a b c hab hbc => by
      simp only [decide_eq_true_eq] at hab hbc ⊢
      exact le_trans hbc hab)
    g
  refine ⟨List.length_take_le n _, ?_⟩
  exact (hsorted.sublist (List.take_sublist n _)).imp
    (fun h => by simpa using h)

/-- `plot_top_cities` (line 129): group the filtered rows by `city`, sum
`line_value_aed`, sort descending, keep the top 10. -/
def topCities (df : List Row) : List (String × Int) :=
  topN 10 (groupbySum strLe Row.city df)

/-- `plot_top_city_zones` (line 136): same with `city_zone`. -/
def topCityZones (df : List Row) : List (String × Int) :=
  topN 10 (groupbySum strLe Row.city_zone df)

/-- `plot_department_sales` (line 150): same with `department`. -/
def departmentSales (df : List Row) : List (String × Int) :=
  topN 10 (groupbySum strLe Row.department df)

/-- `plot_category_sales` (line 157): same with `category`. -/
def categorySales (df : List Row) : List (String × Int) :=
  topN 10 (groupbySum strLe Row.category df)

/-- The grouping key of the `top_skus` table. -/
def skuKey (r : Row) : String × String × String :=
  (r.sku_id, r.brand, r.city_zone)

/-- `top_skus` (lines 196-199): group by `['sku_id','brand','city_zone']`,
sum `line_value_aed`, sort descending, keep the top 50. -/
def topSkus (df : List Row) : List ((String × String × String) × Int) :=
  topN 50 (groupbySum sku3Le skuKey df)

/-- C6 counterexample input: city "B" appears before city "A" in the data,
both with line value 5, so the two city groups tie on the summed metric. -/
def dfTie : List Row :=
  [ { row0 with order_id := 1, city := "B", line_value_aed := some 5 },
    { row0 with order_id := 2, city := "A", line_value_aed := some 5 } ]

/-- C6 counterexample: on `dfTie` the city groups appear in the original
data in the order B, A and tie on the summed metric, yet the top-cities
table lists A before B: `groupby` emits the groups in sorted key order,
and on a two-element array the value sort keeps that order (numpy's
introsort is an insertion sort at this size), so the tie does not follow
the groups' original order of appearance. -/
theorem C6_counterexample :
    uniqueKeys (dfTie.map Row.city) = ["B", "A"] ∧
    topCities dfTie ≠ [("B", 5), ("A", 5)] ∧
    topCities dfTie = [("A", 5), ("B", 5)] := by
  refine ⟨by decide, by decide, by decide⟩

/-- C6 (amended): every top-N aggregation (top 10 cities, top 10 city
zones, top 10 departments, top 10 categories, top 50 SKUs) returns at most
N rows sorted in descending order of summed `line_value_aed`; the order
among rows with equal sums is not guaranteed — in particular it is not the
groups' original order of appearance, since `groupby` emits groups in
sorted key order and the value sort's handling of ties is unspecified
(pandas' default quicksort is unstable). -/
theorem C6_topn_amended (df : List Row) :
    ((topCities df).length ≤ 10 ∧
      (topCities df).Pairwise (fun a b => b.2 ≤ a.2)) ∧
    ((topCityZones df).length ≤ 10 ∧
      (topCityZones df).Pairwise (fun a b => b.2 ≤ a.2)) ∧
    ((departmentSales df).length ≤ 10 ∧
      (departmentSales df).Pairwise (fun a b => b.2 ≤ a.2)) ∧
    ((categorySales df).length ≤ 10 ∧
      (categorySales df).Pairwise (fun a b => b.2 ≤ a.2)) ∧
    ((topSkus df).length ≤ 50 ∧
      (topSkus df).Pairwise (fun a b => b.2 ≤ a.2)) :=
  ⟨topN_le_sorted 10 _, topN_le_sorted 10 _, topN_le_sorted 10 _,
   topN_le_sorted 10 _, topN_le_sorted 50 _⟩

/-- The fixed weekday list `plot_dow` reindexes on (lines 120-122). -/
def weekdays : List String :=
  ["Monday", "Tuesday", "Wednesday", "Thursday", "Friday", "Saturday", "Sunday"]

/-- `plot_dow` (lines 119-126):
`df.groupby('day_of_week')['order_id'].nunique().reindex([Monday..Sunday])`.
Rows with a null `day_of_week` are dropped by `groupby`; `reindex` emits
one entry per weekday in the fixed order, giving NaN (`none`) — not 0 —
to a weekday absent from the group keys. -/
def ordersByDow (df : List Row) : List (String × Option Nat) :=
  weekdays.map (fun d =>
    (d, match df.filter (fun r => r.day_of_week == some d) with
        | [] => none
        | rows => some (uniqueOrders rows)))

/-- C7 counterexample input: a single Monday order, no Sunday rows. -/
def dfMon : List Row :=
  [ { row0 with order_id := 1, day_of_week := some "Monday" } ]

/-- C7 counterexample: with no Sunday rows, the day-of-week chart data
still lists Sunday, but with a NaN (`none`) count rather than the count 0
the claim states — `reindex` fills missing labels with NaN, not 0. -/
theorem C7_counterexample :
    (∀ r ∈ dfMon, r.day_of_week ≠ some "Sunday") ∧
    ("Sunday", (none : Option Nat)) ∈ ordersByDow dfMon ∧
    ("Sunday", (some 0 : Option Nat)) ∉ ordersByDow dfMon ∧
    (ordersByDow dfMon).map Prod.snd =
      [some 1, none, none, none, none, none, none] := by
  refine ⟨by decide, by decide, by decide, by decide⟩

/-- C7 (amended): the day-of-week aggregation counts distinct `order_id`
per `day_of_week` and always reports all seven days in the fixed order
Monday through Sunday; a day with no rows in the input is reported with a
null (NaN) count — it is not omitted, but neither is it reported as 0. -/
theorem C7_dow_amended (df : List Row) :
    (ordersByDow df).map Prod.fst = weekdays ∧
    (ordersByDow df).length = 7 ∧
    (∀ d c, (d, c) ∈ ordersByDow df →
      (c = none ↔ df.filter (fun r => r.day_of_week == some d) = []) ∧
      (∀ n, c = some n →
        n = uniqueOrders (df.filter (fun r => r.day_of_week == some d)))) := by
  refine ⟨?_, by simp [ordersByDow, weekdays], ?_⟩
  · rw [ordersByDow, List.map_map]
    rfl
  intro d c hm
  rw [ordersByDow, List.mem_map] at hm
  obtain ⟨d0, _, heq⟩ := hm
  have hd : d0 = d := congrArg Prod.fst heq
  have hc := congrArg Prod.snd heq
  simp only at hc
  rw [← hd]
  subst hc
  cases hf : df.filter (fun r => r.day_of_week == some d0) with
  | nil => simp [hf]
  | cons x xs =>
    constructor
    · simp [hf]
    · intro n hn
      exact (Option.some_inj.mp hn).symm

/-- C7 witness: applying the amended theorem to the Monday-only table at
the Sunday entry shows no row of that table is a Sunday row. -/
theorem C7_dow_amended_witness :
    dfMon.filter (fun r => r.day_of_week == some "Sunday") = [] :=
  (((C7_dow_amended dfMon).2.2 "Sunday" none (by decide)).1).mp rfl

/-- A raw cell of a numeric CSV column, as `read_csv` hands it to
`pd.to_numeric`: already numeric, an arbitrary string, or empty/NaN.
Numerics are modelled as integers throughout. -/
inductive Cell where
  | numC (n : Int)
  | strC (s : String)
  | nullC
deriving DecidableEq, Repr

/-- Digit-string parsing used to model numeric coercion of string cells. -/
def parseNatChars (cs : List Char) : Option Nat :=
  match cs with
  | [] => none
  | _ =>
    cs.foldl (fun acc c =>
      match acc with
      | none => none
      | some n => if c.isDigit then some (n * 10 + (c.toNat - 48)) else none)
      (some 0)

/-- Integer parsing of a string cell (the integral fragment of pandas'
numeric parser): an optional minus sign followed by digits; anything else
fails. -/
def parseIntStr (s : String) : Option Int :=
  match s.data with
  | '-' :: rest => (parseNatChars rest).map (fun n => -(n : Int))
  | ds => (parseNatChars ds).map (fun n => (n : Int))

/-- `pd.to_numeric(col, errors='coerce')` on one cell: numeric values pass
through, numeric strings parse, anything else becomes null instead of
raising. -/
def toNumeric : Cell → Option Int
  | .numC n => some n
  | .strC s => parseIntStr s
  | .nullC => none

/-- `pd.to_datetime(col, errors='coerce')` on a month label, modelled for
the `YYYY-MM` shape: a parsable label becomes a month index, anything else
becomes null (NaT) instead of raising. -/
def parseMonth (s : String) : Option Int :=
  match s.data with
  | [y1, y2, y3, y4, '-', m1, m2] =>
    if y1.isDigit && y2.isDigit && y3.isDigit && y4.isDigit
        && m1.isDigit && m2.isDigit then
      let y := ((y1.toNat - 48) * 1000 + (y2.toNat - 48) * 100
        + (y3.toNat - 48) * 10 + (y4.toNat - 48) : Int)
      let m := ((m1.toNat - 48) * 10 + (m2.toNat - 48) : Int)
      if 1 ≤ m ∧ m ≤ 12 then some (y * 12 + m) else none
    else none
  | _ => none

/-- One raw CSV row as it stands after `read_csv` with
`parse_dates=["order_datetime"]`: the timestamp is parsed or NaT, the
numeric columns still hold raw cells, no derived columns exist yet. -/
structure RawRow where
  order_id : Nat
  order_datetime : Option DateTime
  order_month : String
  department : String
  category : String
  brand : String
  sku_id : String
  city : String
  city_zone : String
  channel : String
  nationality_group : String
  age : Int
  loyalty_member : Bool
  quantity : Cell
  line_value_aed : Cell
  basket_size_items : Option Int
deriving DecidableEq, Repr

/-- The per-row work of `load_data` (lines 14-22): derive `order_month_dt`
by date-parsing `order_month` with null coercion, derive `day_of_week` and
`hour_of_day` from the timestamp (null timestamp gives null derivations),
and coerce `quantity` and `line_value_aed` to numeric with null coercion. -/
def loadRow (raw : RawRow) : Row :=
  { order_id := raw.order_id
    order_datetime := raw.order_datetime
    order_month := raw.order_month
    order_month_dt := parseMonth raw.order_month
    day_of_week := raw.order_datetime.map (fun t => dayName t.dow)
    hour_of_day := raw.order_datetime.map DateTime.hour
    department := raw.department
    category := raw.category
    brand := raw.brand
    sku_id := raw.sku_id
    city := raw.city
    city_zone := raw.city_zone
    channel := raw.channel
    nationality_group := raw.nationality_group
    age := raw.age
    loyalty_member := raw.loyalty_member
    quantity := toNumeric raw.quantity
    line_value_aed := toNumeric raw.line_value_aed
    basket_size_items := raw.basket_size_items }

/-- `load_data` applied to the parsed CSV rows: one loaded row per raw
row, never failing on malformed cells. -/
def load_data (raws : List RawRow) : List Row := raws.map loadRow

/-- C8: the loader is total on malformed cells — it emits exactly one row
per input row, turning a non-numeric `line_value_aed` or `quantity` into
null and an unparsable `order_month` into a null `order_month_dt`, while
every other value of the row is retained. -/
theorem C8_loader_coercion (raws : List RawRow) :
    (load_data raws).length = raws.length ∧
    ∀ raw ∈ raws,
      (∀ s, raw.line_value_aed = Cell.strC s → parseIntStr s = none →
        (loadRow raw).line_value_aed = none) ∧
      (raw.line_value_aed = Cell.nullC → (loadRow raw).line_value_aed = none) ∧
      (∀ s, raw.quantity = Cell.strC s → parseIntStr s = none →
        (loadRow raw).quantity = none) ∧
      (raw.quantity = Cell.nullC → (loadRow raw).quantity = none) ∧
      (parseMonth raw.order_month = none → (loadRow raw).order_month_dt = none) ∧
      ((loadRow raw).order_id = raw.order_id ∧
       (loadRow raw).order_datetime = raw.order_datetime ∧
       (loadRow raw).order_month = raw.order_month ∧
       (loadRow raw).department = raw.department ∧
       (loadRow raw).category = raw.category ∧
       (loadRow raw).brand = raw.brand ∧
       (loadRow raw).sku_id = raw.sku_id ∧
       (loadRow raw).city = raw.city ∧
       (loadRow raw).city_zone = raw.city_zone ∧
       (loadRow raw).channel = raw.channel ∧
       (loadRow raw).nationality_group = raw.nationality_group ∧
       (loadRow raw).age = raw.age ∧
       (loadRow raw).loyalty_member = raw.loyalty_member ∧
       (loadRow raw).basket_size_items = raw.basket_size_items) := by
  refine ⟨by simp [load_data], ?_⟩
  intro raw _
  refine ⟨?_, ?_, ?_, ?_, ?_, ?_⟩
  · intro s hs hp; simp [loadRow, toNumeric, hs, hp]
  · intro hs; simp [loadRow, toNumeric, hs]
  · intro s hs hp; simp [loadRow, toNumeric, hs, hp]
  · intro hs; simp [loadRow, toNumeric, hs]
  · intro hp; simp [loadRow, hp]
  · exact ⟨rfl, rfl, rfl, rfl, rfl, rfl, rfl, rfl, rfl, rfl, rfl, rfl, rfl, rfl⟩

/-- A raw row with a non-numeric value cell, a non-numeric quantity cell
and an unparsable month label. -/
def badRaw : RawRow :=
  { order_id := 9
    order_datetime := none
    order_month := "January"
    department := "Grocery"
    category := "Food"
    brand := "B"
    sku_id := "S"
    city := "Dubai"
    city_zone := "Z1"
    channel := "offline"
    nationality_group := "GCC"
    age := 41
    loyalty_member := true
    quantity := Cell.strC "two"
    line_value_aed := Cell.strC "12x"
    basket_size_items := some 3 }

/-- C8 witness: on `badRaw` the loader nulls the malformed cells and keeps
the rest of the row. -/
theorem C8_loader_coercion_witness :
    (loadRow badRaw).line_value_aed = none ∧
    (loadRow badRaw).quantity = none ∧
    (loadRow badRaw).order_month_dt = none ∧
    (loadRow badRaw).age = badRaw.age := by
  obtain ⟨h1, _, h3, _, h5, h6⟩ := (C8_loader_coercion [badRaw]).2 badRaw (by decide)
  exact ⟨h1 "12x" rfl (by decide), h3 "two" rfl (by decide), h5 (by decide),
    h6.2.2.2.2.2.2.2.2.2.2.2.1⟩

/-- The CSV export of `st.download_button` (lines 202-207):
`df_filtered.to_csv(index=False)` writes every column; re-reading it puts
each original column back into the raw-cell form `read_csv` produces (a
null number serializes to an empty cell, a number to a numeric cell), and
the derived columns are recomputed by `load_data`, so the export is
modelled on the original columns. -/
def exportRow (r : Row) : RawRow :=
  { order_id := r.order_id
    order_datetime := r.order_datetime
    order_month := r.order_month
    department := r.department
    category := r.category
    brand := r.brand
    sku_id := r.sku_id
    city := r.city
    city_zone := r.city_zone
    channel := r.channel
    nationality_group := r.nationality_group
    age := r.age
    loyalty_member := r.loyalty_member
    quantity := match r.quantity with
      | some n => Cell.numC n
      | none => Cell.nullC
    line_value_aed := match r.line_value_aed with
      | some n => Cell.numC n
      | none => Cell.nullC
    basket_size_items := r.basket_size_items }

/-- The serialized filtered table offered for download. -/
def exportCsv (df : List Row) : List RawRow := df.map exportRow

theorem exportRow_loadRow (r : Row) :
    exportRow (loadRow (exportRow r)) = exportRow r := by
  cases hq : r.quantity <;> cases hl : r.line_value_aed <;>
    simp [exportRow, loadRow, toNumeric, hq, hl]

/-- C9: exporting any filtered table and re-loading it through the loader
yields a table with the same row count whose rows agree with the filtered
table's in every original (non-derived) column — `exportRow` projects
exactly the original columns. -/
theorem C9_roundtrip (df : List Row) (f : FilterSpec) :
    (load_data (exportCsv (applyFilters f df))).length =
      (applyFilters f df).length ∧
    (load_data (exportCsv (applyFilters f df))).map exportRow =
      (applyFilters f df).map exportRow := by
  constructor
  · simp [load_data, exportCsv]
  · unfold load_data exportCsv
    rw [List.map_map, List.map_map]
    apply List.map_congr_left
    intro r _
    exact exportRow_loadRow r

/-- The mutable module-level state of the script: the cached loaded table
`df` (line 26) and the derived filtered table `df_filtered`. -/
structure DashboardState where
  df : List Row
  df_filtered : List Row
deriving DecidableEq, Repr

/-- All values one interaction computes downstream of the loaded table. -/
structure RunResult where
  state : DashboardState
  kpi_total_sales : Int
  kpi_unique_orders : Nat
  kpi_avg_order_value : Option ℚ
  kpi_loyalty : Option ℚ
  chart_top_cities : List (String × Int)
  table_top_skus : List ((String × String × String) × Int)
  download_data : List RawRow

/-- One interaction of the script (lines 52-207): rebind `df_filtered` to
the filtered copy of `df`, then compute every KPI, chart input and the
download payload from `df_filtered`; `df` itself is only ever read. -/
def runDashboard (f : FilterSpec) (s : DashboardState) : RunResult :=
  let filtered := applyFilters f s.df
  { state := { df := s.df, df_filtered := filtered }
    kpi_total_sales := totalSales filtered
    kpi_unique_orders := uniqueOrders filtered
    kpi_avg_order_value := avgOrderValue filtered
    kpi_loyalty := loyaltyShare filtered
    chart_top_cities := topCities filtered
    table_top_skus := topSkus filtered
    download_data := exportCsv filtered }

/-- C10: an interaction leaves the loaded table untouched — the filter
step starts from a copy and only ever rebinds `df_filtered`, and every
aggregation merely reads the filtered copy, so after the whole pass `df`
still holds exactly the rows and values it held before. -/
theorem C10_df_unchanged (f : FilterSpec) (s : DashboardState) :
    (runDashboard f s).state.df = s.df ∧
    (runDashboard f s).state.df_filtered = applyFilters f s.df :=
  ⟨rfl, rfl⟩

end Lulu
